import Mathlib

/-!
Shallow embedding of the ESP32 Daly BMS reader (src/esp32_bms_platformio/src/main.cpp,
src/utils.h, src/config.h) and proofs about its frame construction, frame validation,
telemetry decoding, command engine and connection retry logic.

Conventions of the embedding:
- raw frames are `List Nat` whose entries are meant to be bytes (< 256); where a
  property needs byte-ness it is an explicit hypothesis;
- the C++ `float` fields of `BMSData` are modelled as exact rationals, so a scale
  factor of 0.1 becomes division by 10;
- `uint8_t` / `uint16_t` arithmetic wraps, modelled with `% 256` / `% 65536`;
- the mutable global `bmsData` becomes explicit state passing: each parsing
  function takes the prior `BMSData` and returns the updated one.
-/

namespace DalyBMS

/-- The `BMSData` struct of main.cpp (the telemetry snapshot).  Float fields are
modelled as rationals; `max_temp`/`min_temp` are `uint8_t` values. -/
structure BMSData where
  voltage : ℚ
  current : ℚ
  soc : ℚ
  max_cell_voltage : Nat
  min_cell_voltage : Nat
  max_temp : Nat
  min_temp : Nat
  cycles : Nat
  protection_status : Bool
  remaining_capacity : ℚ
  full_capacity : ℚ
deriving DecidableEq, Repr

/-- The zero-initialised `bmsData` global (all C++ member initialisers are 0/false). -/
def initBMSData : BMSData :=
  { voltage := 0, current := 0, soc := 0, max_cell_voltage := 0, min_cell_voltage := 0,
    max_temp := 0, min_temp := 0, cycles := 0, protection_status := false,
    remaining_capacity := 0, full_capacity := 0 }

/-- main.cpp `calculateChecksum`: `uint8_t` sum of the first `length` bytes,
i.e. the sum modulo 256. -/
def calculateChecksum (data : List Nat) (length : Nat) : Nat :=
  ((data.take length).sum) % 256

/-- The 13-byte message constructed (and written) by main.cpp `sendDalyCommand`:
`A5 80 [command] 08` followed by eight zero data bytes and the checksum over the
first 12 bytes. -/
def sendDalyCommand_message (command : Nat) : List Nat :=
  let msg : List Nat := [0xA5, 0x80, command, 0x08, 0, 0, 0, 0, 0, 0, 0, 0]
  msg ++ [calculateChecksum msg 12]

/-- utils.h `verifyChecksum`: requires at least 2 bytes and the `uint8_t` sum of
all bytes except the last to equal the last byte. -/
def verifyChecksum (data : List Nat) : Bool :=
  if data.length < 2 then false
  else decide ((data.take (data.length - 1)).sum % 256 = data.getD (data.length - 1) 0)

/-- The big-endian 16-bit word `(data[i] << 8) | data[i+1]` read everywhere in
main.cpp (entries are bytes, so the bit-or is addition). -/
def wordAt (data : List Nat) (i : Nat) : Nat :=
  data.getD i 0 * 256 + data.getD (i + 1) 0

/-- Diagnostics emitted by main.cpp `parseDalyResponse`: the two fatal early
returns (`tooShort`, `badStartByte`), the two non-fatal warnings, and the
default branch of the command switch. -/
inductive ParseNote where
  | tooShort
  | badStartByte
  | unexpectedAddress
  | commandEchoMismatch
  | unknownCommand
deriving DecidableEq, Repr

/-- The command switch of main.cpp `parseDalyResponse` (cases 0x90..0x94); each
case reads fixed offsets of the 13-byte frame and updates the snapshot. -/
def decodeDaly (command : Nat) (data : List Nat) (bms : BMSData) : BMSData :=
  if command = 0x90 then
    let voltage_raw := wordAt data 4
    let current_raw := wordAt data 6
    let soc_raw := wordAt data 8
    { bms with voltage := (voltage_raw : ℚ) / 10,
               current := ((current_raw : ℚ) - 30000) / 10,
               soc := (soc_raw : ℚ) / 10 }
  else if command = 0x91 then
    { bms with max_cell_voltage := wordAt data 4, min_cell_voltage := wordAt data 7 }
  else if command = 0x92 then
    { bms with max_temp := (data.getD 4 0 + 216) % 256,
               min_temp := (data.getD 6 0 + 216) % 256 }
  else if command = 0x93 then
    let capacity := data.getD 7 0 * 16777216 + data.getD 8 0 * 65536 +
      data.getD 9 0 * 256 + data.getD 10 0
    { bms with protection_status := (data.getD 4 0 == 1) && (data.getD 5 0 == 1),
               full_capacity := (capacity : ℚ) / 1000 }
  else if command = 0x94 then
    { bms with cycles := wordAt data 9 }
  else bms

/-- The trailing remaining-capacity update of main.cpp `parseDalyResponse`. -/
def remCapStep (bms : BMSData) : BMSData :=
  if 0 < bms.soc ∧ 0 < bms.full_capacity then
    { bms with remaining_capacity := bms.soc / 100 * bms.full_capacity }
  else bms

/-- main.cpp `parseDalyResponse` on the byte level: rejects frames shorter than
13 bytes or not starting with 0xA5, warns (but continues) on address or command
echo mismatch, then decodes via the command switch and the remaining-capacity
update.  Returns the updated snapshot together with the emitted diagnostics. -/
def parseDalyResponse (command : Nat) (data : List Nat) (bms : BMSData) :
    BMSData × List ParseNote :=
  if data.length < 13 then (bms, [ParseNote.tooShort])
  else if data.getD 0 0 ≠ 0xA5 then (bms, [ParseNote.badStartByte])
  else
    let w1 : List ParseNote :=
      if data.getD 1 0 ≠ 0x40 then [ParseNote.unexpectedAddress] else []
    let w2 : List ParseNote :=
      if data.getD 2 0 ≠ command then [ParseNote.commandEchoMismatch] else []
    let w3 : List ParseNote :=
      if command = 0x90 ∨ command = 0x91 ∨ command = 0x92 ∨ command = 0x93 ∨ command = 0x94
      then [] else [ParseNote.unknownCommand]
    (remCapStep (decodeDaly command data bms), w1 ++ w2 ++ w3)

/-- Accumulator of the cell-voltage loop of main.cpp `tryProperDalyProtocol`
(`totalVoltage` is `uint16_t`, `minCellVoltage` starts at 65535). -/
structure CellAcc where
  total : Nat
  maxV : Nat
  minV : Nat
  count : Nat
deriving DecidableEq, Repr

/-- One iteration of the cell-voltage loop: the word at offset `3 + i*2` is
counted only when the bounds check passes and the word lies strictly between
0x0A00 and 0x1200; `totalVoltage` wraps as `uint16_t`. -/
def cellStep (data : List Nat) (dataLen : Nat) (acc : CellAcc) (i : Nat) : CellAcc :=
  if 3 + i * 2 + 1 < dataLen then
    let cellVoltage := wordAt data (3 + i * 2)
    if 0x0A00 < cellVoltage ∧ cellVoltage < 0x1200 then
      { total := (acc.total + cellVoltage) % 65536,
        maxV := max acc.maxV cellVoltage,
        minV := min acc.minV cellVoltage,
        count := acc.count + 1 }
    else acc
  else acc

/-- The cell-voltage phase of main.cpp `tryProperDalyProtocol`: fold the loop
over the 16 cell slots; if any cell was counted, set pack voltage (mV to V) and
the min/max cell voltages. -/
def cellPhase (data : List Nat) (bms : BMSData) : BMSData :=
  let acc := (List.range 16).foldl (cellStep data data.length) ⟨0, 0, 65535, 0⟩
  if 0 < acc.count then
    { bms with voltage := (acc.total : ℚ) / 1000,
               max_cell_voltage := acc.maxV, min_cell_voltage := acc.minV }
  else bms

/-- The SOC phase: word at offsets 68-69, accepted only in [0x0100, 0x03E8]. -/
def socPhase (data : List Nat) (bms : BMSData) : BMSData :=
  if 70 < data.length then
    let socRaw := wordAt data 68
    if 0x0100 ≤ socRaw ∧ socRaw ≤ 0x03E8 then { bms with soc := (socRaw : ℚ) / 10 }
    else bms
  else bms

/-- The temperature phase: byte 69, accepted only in [40, 120], offset by 40. -/
def tempPhase (data : List Nat) (bms : BMSData) : BMSData :=
  if 69 < data.length then
    let tempRaw := data.getD 69 0
    if 40 ≤ tempRaw ∧ tempRaw ≤ 120 then
      { bms with max_temp := tempRaw - 40, min_temp := tempRaw - 40 }
    else bms
  else bms

/-- The current phase: word at offsets 70-71, accepted only in [29000, 31000],
with the 30000 zero-current offset. -/
def currentPhase (data : List Nat) (bms : BMSData) : BMSData :=
  if 72 < data.length then
    let currentRaw := wordAt data 70
    if 29000 ≤ currentRaw ∧ currentRaw ≤ 31000 then
      { bms with current := ((currentRaw : ℚ) - 30000) / 10 }
    else bms
  else bms

/-- First word at index `i` in `[lo, data.length - 1)` with `0 < word < bound`
(the cycle-count search loops of main.cpp `tryProperDalyProtocol`). -/
def findCycleWord (data : List Nat) (lo bound : Nat) : Option Nat :=
  ((List.range' lo (data.length - 1 - lo)).find?
    (fun i => decide (0 < wordAt data i ∧ wordAt data i < bound))).map (wordAt data)

/-- The cycles phase: search from offset 80 with bound 5000; if the snapshot
cycle count is still 0 and the frame is longer than 110 bytes, search again
from offset 100 with bound 10000. -/
def cyclesPhase (data : List Nat) (bms : BMSData) : BMSData :=
  let bms1 : BMSData :=
    match findCycleWord data 80 5000 with
    | some c => { bms with cycles := c }
    | none => bms
  if bms1.cycles = 0 ∧ 110 < data.length then
    match findCycleWord data 100 10000 with
    | some c => { bms1 with cycles := c }
    | none => bms1
  else bms1

/-- The response-parsing part of main.cpp `tryProperDalyProtocol`: the frame is
decoded (and `success` set) exactly when it has at least 124 bytes and starts
with the `D2 03` header; no CRC is computed anywhere in the repository. -/
def tryProperDalyProtocol_parse (data : List Nat) (bms : BMSData) : BMSData × Bool :=
  if 124 ≤ data.length ∧ data.getD 0 0 = 0xD2 ∧ data.getD 1 0 = 0x03 then
    (cyclesPhase data (currentPhase data (tempPhase data (socPhase data (cellPhase data bms)))),
     true)
  else (bms, false)

/-- State of the command/response engine of main.cpp: the globals
`responseReceived`, `expectedCommand`, `lastResponse` plus an explicit log of
the frames written to the write characteristic. -/
structure EngineState where
  responseReceived : Bool
  expectedCommand : Nat
  lastResponse : List Nat
  writes : List (List Nat)
deriving DecidableEq, Repr

/-- main.cpp `sendDalyCommandAndWait`: unconditionally writes the 13-byte
command frame, clears `responseReceived`, sets `expectedCommand`, then waits.
`arrival` models whether a notification is delivered within the timeout: on
arrival the response is parsed and `true` returned, otherwise `false`. -/
def sendDalyCommandAndWait (st : EngineState) (bms : BMSData) (command : Nat)
    (arrival : Option (List Nat)) : EngineState × BMSData × Bool :=
  let st1 : EngineState :=
    { st with writes := st.writes ++ [sendDalyCommand_message command],
              responseReceived := false, expectedCommand := command }
  match arrival with
  | some resp =>
      ({ st1 with lastResponse := resp, responseReceived := false },
       (parseDalyResponse command resp bms).1, true)
  | none => (st1, bms, false)

/-- Connection-manager state of main.cpp: the discovered candidate MAC (empty
string means none), the consecutive attempt counter and the connected flag. -/
structure ConnState where
  discovered_bms_mac : String
  connectionAttempts : Nat
  connected : Bool
deriving DecidableEq, Repr

/-- main.cpp `connectToBMS` as a state transition; `connectOk` models the
result of `pClient->connect`.  With no candidate it returns immediately; on
success the counter resets; on the failure that brings the counter to 5 the
counter resets and the candidate is cleared. -/
def connectToBMS (st : ConnState) (connectOk : Bool) : ConnState :=
  if st.discovered_bms_mac.length = 0 then st
  else
    let attempts := st.connectionAttempts + 1
    if connectOk then { st with connected := true, connectionAttempts := 0 }
    else if 5 ≤ attempts then
      { st with connected := false, connectionAttempts := 0, discovered_bms_mac := "" }
    else { st with connected := false, connectionAttempts := attempts }

/-- Modelled from the spec: CRC-16/MODBUS bit step (poly 0xA001, LSB first).
The repository contains no CRC implementation; this definition exists only to
state what the spec claims the CRC validation would check. -/
def crc16ShiftBit (c : Nat) : Nat :=
  if c % 2 = 1 then (c / 2) ^^^ 0xA001 else c / 2

/-- Modelled from the spec: fold one byte into the CRC-16/MODBUS state. -/
def crc16Byte (c b : Nat) : Nat :=
  (List.range 8).foldl (fun acc _ => crc16ShiftBit acc) (c ^^^ b)

/-- Modelled from the spec: CRC-16/MODBUS of a byte sequence, seed 0xFFFF. -/
def crc16Modbus (data : List Nat) : Nat :=
  data.foldl crc16Byte 0xFFFF

end DalyBMS

namespace DalyBMS

/-! Concrete frames used as counterexamples and witnesses. -/

/-- A 13-byte checksum-variant frame with valid start byte 0xA5 but an invalid
trailing checksum byte (the 8-bit sum of the first 12 bytes is 0x7E, not 0). -/
def cex2frame : List Nat := [0xA5, 0x40, 0x90, 0x08, 1, 0, 0, 0, 0, 0, 0, 0, 0]

/-- A 124-byte frame: D2 03 header followed by zeros.  Its length is not 129
and its trailing two bytes do not match the CRC-16/MODBUS of the rest. -/
def cex3frame : List Nat := [0xD2, 0x03] ++ List.replicate 122 0

/-- A 13-byte frame with valid start byte whose trailing checksum byte is wrong
(the sum of the first 12 bytes is 0xBD, the last byte is 0). -/
def cex4frame : List Nat := [0xA5, 0x40, 0x90, 0x08, 0, 0, 0, 0, 0, 0, 0, 0, 0]

/-- A 13-byte frame with a correct trailing checksum (0xA5 + 0x40 = 0xE5). -/
def okChecksumFrame : List Nat := [0xA5, 0x40, 0, 0, 0, 0, 0, 0, 0, 0, 0, 0, 0xE5]

/-- A valid 0x90 response frame: voltage raw 0x0208 = 520, current raw
0x7594 = 30100, SOC raw 0x03E8 = 1000, correct checksum 0x7B. -/
def okResponse90 : List Nat :=
  [0xA5, 0x40, 0x90, 0x08, 0x02, 0x08, 0x75, 0x94, 0x03, 0xE8, 0, 0, 0x7B]

/-- An engine state in which a request is already outstanding (command 0x90
written, no response yet). -/
def pendingRequestState : EngineState :=
  { responseReceived := false, expectedCommand := 0x90, lastResponse := [],
    writes := [sendDalyCommand_message 0x90] }

/-- A 13-byte frame whose echoed command id (byte 2) is 0x91. -/
def echoMismatchFrame : List Nat :=
  [0xA5, 0x40, 0x91, 0x08, 0, 0, 0, 0, 0, 0, 0, 0, 0x7E]

/-- A 129-byte CRC-variant frame: header D2 03, length byte 0x7C, sixteen
big-endian cell words (3400, 3100, then fourteen times 3250; sum 52000),
padded with zeros.  3400 = 0x0D48, 3100 = 0x0C1C, 3250 = 0x0CB2. -/
def bulkFrame129 : List Nat :=
  [0xD2, 0x03, 0x7C,
   0x0D, 0x48, 0x0C, 0x1C,
   0x0C, 0xB2, 0x0C, 0xB2, 0x0C, 0xB2, 0x0C, 0xB2, 0x0C, 0xB2, 0x0C, 0xB2, 0x0C, 0xB2,
   0x0C, 0xB2, 0x0C, 0xB2, 0x0C, 0xB2, 0x0C, 0xB2, 0x0C, 0xB2, 0x0C, 0xB2, 0x0C, 0xB2] ++
  List.replicate 94 0

/-! Helper lemmas. -/

theorem getD_set_ne (l : List Nat) (i j a : Nat) (h : i ≠ j) :
    (l.set i a).getD j 0 = l.getD j 0 := by
  simp [List.getD_eq_getElem?_getD, List.getElem?_set_ne h]

theorem getD_lt_of_forall (l : List Nat) (i : Nat) (hi : i < l.length)
    (hb : ∀ x ∈ l, x < 256) : l.getD i 0 < 256 := by
  rw [List.getD_eq_getElem?_getD, List.getElem?_eq_getElem hi]
  exact hb _ (List.getElem_mem hi)

theorem sum_take_set_add (l : List Nat) (i k b : Nat) (hik : i < k) (hk : k ≤ l.length) :
    ((l.set i b).take k).sum + l.getD i 0 = (l.take k).sum + b := by
  induction l generalizing i k with
  | nil =>
    simp only [List.length_nil, Nat.le_zero] at hk
    omega
  | cons x xs ih =>
    cases k with
    | zero => omega
    | succ k =>
      cases i with
      | zero =>
        simp only [List.set_cons_zero, List.take_succ_cons, List.sum_cons,
          List.getD_cons_zero]
        omega
      | succ i =>
        have hk' : k ≤ xs.length := by simpa using hk
        have H := ih i k (by omega) hk'
        simp only [List.set_cons_succ, List.take_succ_cons, List.sum_cons,
          List.getD_cons_succ]
        omega

theorem foldl_max_le (l : List Nat) (a m : Nat) (ha : a ≤ m) (hl : ∀ x ∈ l, x ≤ m) :
    l.foldl max a ≤ m := by
  induction l generalizing a with
  | nil => exact ha
  | cons x xs ih =>
    exact ih (max a x) (max_le ha (hl x (by simp))) (fun y hy => hl y (by simp [hy]))

theorem le_foldl_max_start (l : List Nat) (a : Nat) : a ≤ l.foldl max a := by
  induction l generalizing a with
  | nil => exact le_refl a
  | cons x xs ih => exact le_trans (le_max_left a x) (ih (max a x))

theorem le_foldl_max (l : List Nat) (m : Nat) (hm : m ∈ l) : ∀ a, m ≤ l.foldl max a := by
  induction l with
  | nil => cases hm
  | cons x xs ih =>
    intro a
    rcases List.mem_cons.mp hm with h | h
    · subst h
      exact le_trans (le_max_right a m) (le_foldl_max_start xs (max a m))
    · exact ih h (max a x)

theorem foldl_max_eq (l : List Nat) (a m : Nat) (ha : a ≤ m) (hl : ∀ x ∈ l, x ≤ m)
    (hm : m ∈ l) : l.foldl max a = m :=
  le_antisymm (foldl_max_le l a m ha hl) (le_foldl_max l m hm a)

theorem le_foldl_min (l : List Nat) (a m : Nat) (ha : m ≤ a) (hl : ∀ x ∈ l, m ≤ x) :
    m ≤ l.foldl min a := by
  induction l generalizing a with
  | nil => exact ha
  | cons x xs ih =>
    exact ih (min a x) (le_min ha (hl x (by simp))) (fun y hy => hl y (by simp [hy]))

theorem foldl_min_le_start (l : List Nat) (a : Nat) : l.foldl min a ≤ a := by
  induction l generalizing a with
  | nil => exact le_refl a
  | cons x xs ih => exact le_trans (ih (min a x)) (min_le_left a x)

theorem foldl_min_le (l : List Nat) (m : Nat) (hm : m ∈ l) : ∀ a, l.foldl min a ≤ m := by
  induction l with
  | nil => cases hm
  | cons x xs ih =>
    intro a
    rcases List.mem_cons.mp hm with h | h
    · subst h
      exact le_trans (foldl_min_le_start xs (min a m)) (min_le_right a m)
    · exact ih h (min a x)

theorem foldl_min_eq (l : List Nat) (a m : Nat) (ha : m ≤ a) (hl : ∀ x ∈ l, m ≤ x)
    (hm : m ∈ l) : l.foldl min a = m :=
  le_antisymm (foldl_min_le l m hm a) (le_foldl_min l a m ha hl)

theorem remCapStep_keeps (b : BMSData) :
    (remCapStep b).voltage = b.voltage ∧ (remCapStep b).current = b.current ∧
    (remCapStep b).soc = b.soc ∧
    (remCapStep b).max_cell_voltage = b.max_cell_voltage ∧
    (remCapStep b).min_cell_voltage = b.min_cell_voltage := by
  unfold remCapStep
  split <;> exact ⟨rfl, rfl, rfl, rfl, rfl⟩

/-- Claim C1: for every command id, the constructed checksum-variant write
frame is exactly the 13 bytes A5 80 cmd 08, eight zero bytes, and the 8-bit
sum of the first 12 bytes; at command 0x90 it is the literal sequence
A5 80 90 08 00 00 00 00 00 00 00 00 BD (0xBD being that sum). -/
theorem claim_C1 (c : Nat) (h : c < 256) :
    (sendDalyCommand_message c).length = 13 ∧
    sendDalyCommand_message c =
      [0xA5, 0x80, c, 0x08, 0, 0, 0, 0, 0, 0, 0, 0] ++
        [([0xA5, 0x80, c, 0x08, 0, 0, 0, 0, 0, 0, 0, 0] : List Nat).sum % 256] ∧
    (∀ b ∈ sendDalyCommand_message c, b < 256) ∧
    sendDalyCommand_message 0x90 =
      [0xA5, 0x80, 0x90, 0x08, 0, 0, 0, 0, 0, 0, 0, 0, 0xBD] := by
  refine ⟨rfl, rfl, ?_, by decide⟩
  intro b hb
  simp only [sendDalyCommand_message, calculateChecksum, List.mem_append,
    List.mem_cons, List.mem_singleton, List.not_mem_nil, or_false] at hb
  rcases hb with hb | hb
  · rcases hb with hb | hb | hb | hb | hb | hb | hb | hb | hb | hb | hb | hb <;> omega
  · subst hb
    exact Nat.mod_lt _ (by norm_num)

/-- Witness for claim C1 at the concrete command id 0x90. -/
theorem claim_C1_witness :
    (0x90 : Nat) < 256 ∧ (sendDalyCommand_message 0x90).length = 13 :=
  ⟨by decide, (claim_C1 0x90 (by decide)).1⟩

/-- Claim C2 counterexample: a 13-byte frame with valid start byte but invalid
trailing checksum fails the checksum check of utils.h, yet parseDalyResponse
still mutates the snapshot, because the parser never verifies the checksum. -/
theorem C2_counterexample :
    verifyChecksum cex2frame = false ∧
    (parseDalyResponse 0x90 cex2frame initBMSData).1.voltage ≠ initBMSData.voltage := by
  constructor
  · decide
  · have h1 : (parseDalyResponse 0x90 cex2frame initBMSData).1 =
        remCapStep (decodeDaly 0x90 cex2frame initBMSData) := by
      unfold parseDalyResponse
      rw [if_neg (by decide), if_neg (by decide)]
    have h2 : wordAt cex2frame 4 = 256 := by decide
    rw [h1, (remCapStep_keeps _).1]
    unfold decodeDaly
    rw [if_pos rfl, h2]
    show (256 : ℚ) / 10 ≠ initBMSData.voltage
    unfold initBMSData
    norm_num

/-- Claim C2 amended: the snapshot is left unchanged exactly when the code's
own header checks fail (checksum variant: shorter than 13 bytes or wrong start
byte; CRC variant: shorter than 124 bytes or wrong D2 03 header); the trailing
checksum and CRC are never verified, so frames failing only those checks can
still mutate the snapshot. -/
theorem C2_amended (command : Nat) (data : List Nat) (bms : BMSData) :
    (data.length < 13 ∨ data.getD 0 0 ≠ 0xA5 →
      (parseDalyResponse command data bms).1 = bms) ∧
    (¬(124 ≤ data.length ∧ data.getD 0 0 = 0xD2 ∧ data.getD 1 0 = 0x03) →
      (tryProperDalyProtocol_parse data bms).1 = bms) := by
  constructor
  · intro h
    unfold parseDalyResponse
    rcases h with h | h
    · rw [if_pos h]
    · by_cases hl : data.length < 13
      · rw [if_pos hl]
      · rw [if_neg hl, if_pos h]
  · intro h
    unfold tryProperDalyProtocol_parse
    rw [if_neg h]

/-- Witness for the amended claim C2 at a concrete rejected input. -/
theorem C2_amended_witness :
    (parseDalyResponse 0x90 [0] initBMSData).1 = initBMSData ∧
    (tryProperDalyProtocol_parse [0] initBMSData).1 = initBMSData :=
  ⟨(C2_amended 0x90 [0] initBMSData).1 (Or.inl (by decide)),
   (C2_amended 0x90 [0] initBMSData).2 (by decide)⟩

set_option maxRecDepth 5000 in
/-- Claim C3 counterexample: a 124-byte frame with D2 03 header, length
different from 129 and trailing bytes different from the CRC-16/MODBUS of the
preceding bytes is nevertheless accepted and decoded (success flag true). -/
theorem C3_counterexample :
    (tryProperDalyProtocol_parse cex3frame initBMSData).2 = true ∧
    cex3frame.length ≠ 129 ∧
    wordAt cex3frame 122 ≠ crc16Modbus (cex3frame.take 122) := by
  refine ⟨?_, by decide, ?_⟩
  · unfold tryProperDalyProtocol_parse
    rw [if_pos (by decide)]
  · have hw : wordAt cex3frame 122 = 0 := by decide
    have ht : cex3frame.take 122 =
        [0xD2, 0x03] ++ (List.replicate 40 0 ++ (List.replicate 40 0 ++
          List.replicate 40 0)) := by decide
    have s1 : List.foldl crc16Byte 0xFFFF [0xD2, 0x03] = 4381 := by decide
    have s2 : List.foldl crc16Byte 4381 (List.replicate 40 0) = 12076 := by decide
    have s3 : List.foldl crc16Byte 12076 (List.replicate 40 0) = 7955 := by decide
    have s4 : List.foldl crc16Byte 7955 (List.replicate 40 0) = 34268 := by decide
    have hcrc : crc16Modbus (cex3frame.take 122) = 34268 := by
      rw [crc16Modbus, ht, List.foldl_append, List.foldl_append, List.foldl_append,
        s1, s2, s3, s4]
    rw [hw, hcrc]
    decide

/-- Claim C3 amended: CRC-variant validation accepts a received frame exactly
when its length is at least 124 bytes and bytes 0-1 equal the header D2 03;
neither the exact 129-byte length nor the CRC-16/MODBUS of the frame is
checked anywhere. -/
theorem C3_amended (data : List Nat) (bms : BMSData) :
    (tryProperDalyProtocol_parse data bms).2 = true ↔
      (124 ≤ data.length ∧ data.getD 0 0 = 0xD2 ∧ data.getD 1 0 = 0x03) := by
  unfold tryProperDalyProtocol_parse
  split
  next h => exact iff_of_true rfl h
  next h => exact iff_of_false (by simp) h

/-- Claim C7 counterexample: invoking the send-and-wait engine while a request
is already outstanding performs a second write (the write log grows), instead
of rejecting the call. -/
theorem C7_counterexample :
    (sendDalyCommandAndWait pendingRequestState initBMSData 0x91 none).1.writes =
      [sendDalyCommand_message 0x90, sendDalyCommand_message 0x91] ∧
    (sendDalyCommandAndWait pendingRequestState initBMSData 0x91 none).1.writes.length = 2 :=
  ⟨rfl, rfl⟩

/-- Claim C7 amended: sendDalyCommandAndWait never rejects a call: from any
engine state it unconditionally writes the 13-byte command frame, and it
leaves no request outstanding when it returns (responseReceived is always
cleared); mutual exclusion of requests holds only because the call blocks
until response or timeout in the single-threaded loop. -/
theorem C7_amended (st : EngineState) (bms : BMSData) (command : Nat)
    (arrival : Option (List Nat)) :
    (sendDalyCommandAndWait st bms command arrival).1.writes =
      st.writes ++ [sendDalyCommand_message command] ∧
    (sendDalyCommandAndWait st bms command arrival).1.responseReceived = false := by
  cases arrival <;> exact ⟨rfl, rfl⟩

end DalyBMS

namespace DalyBMS

/-! More helper lemmas (validation branches and phase-preservation facts). -/

theorem parse_fst_reject (command : Nat) (data : List Nat) (bms : BMSData)
    (h : data.length < 13 ∨ data.getD 0 0 ≠ 0xA5) :
    (parseDalyResponse command data bms).1 = bms := by
  unfold parseDalyResponse
  rcases h with h | h
  · rw [if_pos h]
  · by_cases hl : data.length < 13
    · rw [if_pos hl]
    · rw [if_neg hl, if_pos h]

theorem parse_fst_accept (command : Nat) (data : List Nat) (bms : BMSData)
    (h13 : 13 ≤ data.length) (hA : data.getD 0 0 = 0xA5) :
    (parseDalyResponse command data bms).1 = remCapStep (decodeDaly command data bms) := by
  unfold parseDalyResponse
  rw [if_neg (by omega), if_neg (fun hcon => hcon hA)]

theorem parse_notes_sub (command : Nat) (data : List Nat) (bms : BMSData)
    (h13 : 13 ≤ data.length) (hA : data.getD 0 0 = 0xA5) :
    ∀ n ∈ (parseDalyResponse command data bms).2,
      n = ParseNote.unexpectedAddress ∨ n = ParseNote.commandEchoMismatch ∨
      n = ParseNote.unknownCommand := by
  unfold parseDalyResponse
  rw [if_neg (by omega), if_neg (fun hcon => hcon hA)]
  intro n hn
  dsimp only at hn
  rcases List.mem_append.mp hn with hn | hn
  · rcases List.mem_append.mp hn with hn | hn
    · split at hn
      · exact Or.inl (List.mem_singleton.mp hn)
      · cases hn
    · split at hn
      · exact Or.inr (Or.inl (List.mem_singleton.mp hn))
      · cases hn
  · split at hn
    · cases hn
    · exact Or.inr (Or.inr (List.mem_singleton.mp hn))

theorem tryParse_fst_reject (data : List Nat) (bms : BMSData)
    (h : ¬(124 ≤ data.length ∧ data.getD 0 0 = 0xD2 ∧ data.getD 1 0 = 0x03)) :
    (tryProperDalyProtocol_parse data bms).1 = bms := by
  unfold tryProperDalyProtocol_parse
  rw [if_neg h]

theorem tryParse_fst_accept (data : List Nat) (bms : BMSData)
    (h : 124 ≤ data.length ∧ data.getD 0 0 = 0xD2 ∧ data.getD 1 0 = 0x03) :
    (tryProperDalyProtocol_parse data bms).1 =
      cyclesPhase data (currentPhase data (tempPhase data (socPhase data
        (cellPhase data bms)))) := by
  unfold tryProperDalyProtocol_parse
  rw [if_pos h]

theorem verifyChecksum_true_iff (data : List Nat) :
    verifyChecksum data = true ↔
      (2 ≤ data.length ∧
       (data.take (data.length - 1)).sum % 256 = data.getD (data.length - 1) 0) := by
  unfold verifyChecksum
  by_cases h2 : data.length < 2
  · rw [if_pos h2]
    exact iff_of_false (by simp) (by omega)
  · rw [if_neg h2]
    rw [decide_eq_true_eq]
    exact ⟨fun hp => ⟨by omega, hp⟩, fun hp => hp.2⟩

theorem verifyChecksum_flip (data : List Nat) (i b : Nat)
    (hbytes : ∀ x ∈ data, x < 256) (hv : verifyChecksum data = true)
    (hi : i < data.length - 1) (hb : b < 256) (hne : b ≠ data.getD i 0) :
    verifyChecksum (data.set i b) = false := by
  obtain ⟨hlen, hsum⟩ := (verifyChecksum_true_iff data).mp hv
  by_contra hcon
  have hv2 : verifyChecksum (data.set i b) = true := by
    cases hx : verifyChecksum (data.set i b)
    · exact absurd hx hcon
    · rfl
  obtain ⟨_, hsum2⟩ := (verifyChecksum_true_iff _).mp hv2
  rw [List.length_set] at hsum2
  rw [getD_set_ne data i (data.length - 1) b (by omega)] at hsum2
  have hkey := sum_take_set_add data i (data.length - 1) b hi (by omega)
  have ha : data.getD i 0 < 256 := getD_lt_of_forall data i (by omega) hbytes
  have hmod : (((data.set i b).take (data.length - 1)).sum + data.getD i 0) % 256 =
      ((data.take (data.length - 1)).sum + b) % 256 := by rw [hkey]
  rw [Nat.add_mod, Nat.add_mod ((data.take (data.length - 1)).sum) b,
    hsum2, hsum] at hmod
  rw [Nat.mod_eq_of_lt ha, Nat.mod_eq_of_lt hb] at hmod
  omega

theorem cellStep_skip (data : List Nat) (acc : CellAcc) (i : Nat)
    (hout : ¬(0x0A00 < wordAt data (3 + i * 2) ∧ wordAt data (3 + i * 2) < 0x1200)) :
    cellStep data data.length acc i = acc := by
  unfold cellStep
  split
  · dsimp only
    rw [if_neg hout]
  · rfl

theorem cellFold_skip (data : List Nat) (idxs : List Nat) (acc : CellAcc)
    (h : ∀ j ∈ idxs,
      ¬(0x0A00 < wordAt data (3 + j * 2) ∧ wordAt data (3 + j * 2) < 0x1200)) :
    idxs.foldl (cellStep data data.length) acc = acc := by
  induction idxs generalizing acc with
  | nil => rfl
  | cons j rest ih =>
    rw [List.foldl_cons, cellStep_skip data acc j (h j (by simp))]
    exact ih acc (fun k hk => h k (by simp [hk]))

theorem cellPhase_of_skip (data : List Nat) (bms : BMSData)
    (hall : ∀ j ∈ List.range 16,
      ¬(0x0A00 < wordAt data (3 + j * 2) ∧ wordAt data (3 + j * 2) < 0x1200)) :
    cellPhase data bms = bms := by
  unfold cellPhase
  rw [cellFold_skip data (List.range 16) ⟨0, 0, 65535, 0⟩ hall]
  rfl

theorem socPhase_keeps (data : List Nat) (b : BMSData) :
    (socPhase data b).voltage = b.voltage ∧
    (socPhase data b).max_cell_voltage = b.max_cell_voltage ∧
    (socPhase data b).min_cell_voltage = b.min_cell_voltage := by
  unfold socPhase
  split
  · dsimp only
    split <;> exact ⟨rfl, rfl, rfl⟩
  · exact ⟨rfl, rfl, rfl⟩

theorem tempPhase_keeps (data : List Nat) (b : BMSData) :
    (tempPhase data b).voltage = b.voltage ∧
    (tempPhase data b).max_cell_voltage = b.max_cell_voltage ∧
    (tempPhase data b).min_cell_voltage = b.min_cell_voltage := by
  unfold tempPhase
  split
  · dsimp only
    split <;> exact ⟨rfl, rfl, rfl⟩
  · exact ⟨rfl, rfl, rfl⟩

theorem currentPhase_keeps (data : List Nat) (b : BMSData) :
    (currentPhase data b).voltage = b.voltage ∧
    (currentPhase data b).max_cell_voltage = b.max_cell_voltage ∧
    (currentPhase data b).min_cell_voltage = b.min_cell_voltage := by
  unfold currentPhase
  split
  · dsimp only
    split <;> exact ⟨rfl, rfl, rfl⟩
  · exact ⟨rfl, rfl, rfl⟩

theorem cyclesPhase_keeps (data : List Nat) (b : BMSData) :
    (cyclesPhase data b).voltage = b.voltage ∧
    (cyclesPhase data b).max_cell_voltage = b.max_cell_voltage ∧
    (cyclesPhase data b).min_cell_voltage = b.min_cell_voltage := by
  unfold cyclesPhase
  rcases findCycleWord data 80 5000 with _ | c
  · dsimp only
    split
    · rcases findCycleWord data 100 10000 with _ | c2
      · exact ⟨rfl, rfl, rfl⟩
      · exact ⟨rfl, rfl, rfl⟩
    · exact ⟨rfl, rfl, rfl⟩
  · dsimp only
    split
    · rcases findCycleWord data 100 10000 with _ | c2
      · exact ⟨rfl, rfl, rfl⟩
      · exact ⟨rfl, rfl, rfl⟩
    · exact ⟨rfl, rfl, rfl⟩

/-- Claim C4 counterexample: a 13-byte frame with valid start byte but wrong
trailing checksum is accepted by parseDalyResponse (neither fatal diagnostic
is emitted), its recomputed 8-bit sum differs from its last byte, and flipping
a non-checksum byte (byte 5) still leaves it accepted. -/
theorem C4_counterexample :
    (ParseNote.tooShort ∉ (parseDalyResponse 0x90 cex4frame initBMSData).2 ∧
     ParseNote.badStartByte ∉ (parseDalyResponse 0x90 cex4frame initBMSData).2) ∧
    (cex4frame.take (cex4frame.length - 1)).sum % 256 ≠
      cex4frame.getD (cex4frame.length - 1) 0 ∧
    (ParseNote.tooShort ∉ (parseDalyResponse 0x90 (cex4frame.set 5 1) initBMSData).2 ∧
     ParseNote.badStartByte ∉ (parseDalyResponse 0x90 (cex4frame.set 5 1) initBMSData).2) := by
  refine ⟨⟨by decide, by decide⟩, by decide, ⟨by decide, by decide⟩⟩

/-- Claim C4 amended: the checksum-variant validation actually executed
(parseDalyResponse) accepts a frame exactly when its length is at least 13 and
byte 0 is 0xA5 - the trailing checksum is never recomputed, so flipping a
non-checksum byte other than byte 0 goes undetected there.  The checksum
equation of the claim holds for the unused helper verifyChecksum of utils.h:
it succeeds exactly when the frame has at least 2 bytes whose 8-bit prefix sum
equals the last byte, and flipping any single non-checksum byte of a frame it
accepts makes it fail. -/
theorem C4_amended (command : Nat) (data : List Nat) (bms : BMSData) (i b : Nat)
    (hbytes : ∀ x ∈ data, x < 256) :
    ((ParseNote.tooShort ∉ (parseDalyResponse command data bms).2 ∧
      ParseNote.badStartByte ∉ (parseDalyResponse command data bms).2) ↔
      (13 ≤ data.length ∧ data.getD 0 0 = 0xA5)) ∧
    (verifyChecksum data = true ↔
      (2 ≤ data.length ∧
       (data.take (data.length - 1)).sum % 256 = data.getD (data.length - 1) 0)) ∧
    (verifyChecksum data = true → i < data.length - 1 → b < 256 →
      b ≠ data.getD i 0 → verifyChecksum (data.set i b) = false) := by
  refine ⟨?_, verifyChecksum_true_iff data, verifyChecksum_flip data i b hbytes⟩
  by_cases h13 : data.length < 13
  · refine iff_of_false ?_ (by omega)
    unfold parseDalyResponse
    rw [if_pos h13]
    intro hmem
    exact hmem.1 (by simp)
  · by_cases hA : data.getD 0 0 ≠ 0xA5
    · refine iff_of_false ?_ (fun hc => hA hc.2)
      unfold parseDalyResponse
      rw [if_neg h13, if_pos hA]
      intro hmem
      exact hmem.2 (by simp)
    · have hsub := parse_notes_sub command data bms (by omega) (of_not_not hA)
      refine iff_of_true ⟨fun hmem => ?_, fun hmem => ?_⟩ ⟨by omega, of_not_not hA⟩
      · rcases hsub _ hmem with h | h | h <;> exact ParseNote.noConfusion h
      · rcases hsub _ hmem with h | h | h <;> exact ParseNote.noConfusion h

/-- Witness for the amended claim C4: flipping byte 4 of a frame with a valid
checksum makes verifyChecksum fail. -/
theorem C4_amended_witness :
    verifyChecksum (okChecksumFrame.set 4 7) = false :=
  (C4_amended 0x90 okChecksumFrame initBMSData 4 7 (by decide)).2.2 (by decide)
    (by decide) (by decide) (by decide)

/-- Claim C5: on any frame accepted by checksum-variant validation, the 0x90
decoder reads the three big-endian words at frame offsets 4, 6, 8 and sets
voltage to raw/10 volts, current to (raw - 30000)/10 amperes and SOC to raw/10
percent, for every raw value. -/
theorem claim_C5 (data : List Nat) (bms : BMSData)
    (h13 : 13 ≤ data.length) (hA : data.getD 0 0 = 0xA5) :
    (parseDalyResponse 0x90 data bms).1.voltage = (wordAt data 4 : ℚ) / 10 ∧
    (parseDalyResponse 0x90 data bms).1.current = ((wordAt data 6 : ℚ) - 30000) / 10 ∧
    (parseDalyResponse 0x90 data bms).1.soc = (wordAt data 8 : ℚ) / 10 := by
  rw [parse_fst_accept 0x90 data bms h13 hA]
  obtain ⟨hv, hc, hs, _, _⟩ := remCapStep_keeps (decodeDaly 0x90 data bms)
  rw [hv, hc, hs]
  unfold decodeDaly
  rw [if_pos rfl]
  exact ⟨rfl, rfl, rfl⟩

/-- Witness for claim C5 on a concrete valid 0x90 response. -/
theorem claim_C5_witness :
    (parseDalyResponse 0x90 okResponse90 initBMSData).1.voltage =
      (wordAt okResponse90 4 : ℚ) / 10 ∧
    (parseDalyResponse 0x90 okResponse90 initBMSData).1.current =
      ((wordAt okResponse90 6 : ℚ) - 30000) / 10 ∧
    (parseDalyResponse 0x90 okResponse90 initBMSData).1.soc =
      (wordAt okResponse90 8 : ℚ) / 10 :=
  claim_C5 okResponse90 initBMSData (by decide) (by decide)

/-- Claim C9: a frame passing checksum-variant validation whose echoed command
id (byte 2) differs from the expected command still gets decoded exactly as a
matching frame would (the result is the decode of the expected command), a
CommandEchoMismatch warning is emitted, and no fatal rejection occurs. -/
theorem claim_C9 (command : Nat) (data : List Nat) (bms : BMSData)
    (h13 : 13 ≤ data.length) (hA : data.getD 0 0 = 0xA5)
    (hm : data.getD 2 0 ≠ command) :
    ParseNote.commandEchoMismatch ∈ (parseDalyResponse command data bms).2 ∧
    ParseNote.tooShort ∉ (parseDalyResponse command data bms).2 ∧
    ParseNote.badStartByte ∉ (parseDalyResponse command data bms).2 ∧
    (parseDalyResponse command data bms).1 = remCapStep (decodeDaly command data bms) := by
  have hsub := parse_notes_sub command data bms h13 hA
  refine ⟨?_, ?_, ?_, parse_fst_accept command data bms h13 hA⟩
  · unfold parseDalyResponse
    rw [if_neg (by omega), if_neg (fun hcon => hcon hA)]
    dsimp only
    refine List.mem_append.mpr (Or.inl (List.mem_append.mpr (Or.inr ?_)))
    rw [if_pos hm]
    simp
  · intro hmem
    rcases hsub _ hmem with h | h | h <;> exact ParseNote.noConfusion h
  · intro hmem
    rcases hsub _ hmem with h | h | h <;> exact ParseNote.noConfusion h

/-- Witness for claim C9 on a concrete frame echoing 0x91 while 0x90 was
expected. -/
theorem claim_C9_witness :
    ParseNote.commandEchoMismatch ∈ (parseDalyResponse 0x90 echoMismatchFrame initBMSData).2 ∧
    ParseNote.tooShort ∉ (parseDalyResponse 0x90 echoMismatchFrame initBMSData).2 ∧
    ParseNote.badStartByte ∉ (parseDalyResponse 0x90 echoMismatchFrame initBMSData).2 ∧
    (parseDalyResponse 0x90 echoMismatchFrame initBMSData).1 =
      remCapStep (decodeDaly 0x90 echoMismatchFrame initBMSData) :=
  claim_C9 0x90 echoMismatchFrame initBMSData (by decide) (by decide) (by decide)

/-- Claim C10: a cell word is counted by the bulk decode only when it lies
strictly between 0x0A00 and 0x1200 (otherwise the loop step leaves the
accumulator unchanged), and when no cell word of the frame is in range the
snapshot fields voltage, max_cell_voltage and min_cell_voltage keep their
prior values. -/
theorem claim_C10 (data : List Nat) (bms : BMSData) (acc : CellAcc) (i : Nat)
    (hout : ¬(0x0A00 < wordAt data (3 + i * 2) ∧ wordAt data (3 + i * 2) < 0x1200))
    (hall : ∀ j ∈ List.range 16,
      ¬(0x0A00 < wordAt data (3 + j * 2) ∧ wordAt data (3 + j * 2) < 0x1200)) :
    cellStep data data.length acc i = acc ∧
    ((tryProperDalyProtocol_parse data bms).1.voltage = bms.voltage ∧
     (tryProperDalyProtocol_parse data bms).1.max_cell_voltage = bms.max_cell_voltage ∧
     (tryProperDalyProtocol_parse data bms).1.min_cell_voltage = bms.min_cell_voltage) := by
  refine ⟨cellStep_skip data acc i hout, ?_⟩
  by_cases hg : 124 ≤ data.length ∧ data.getD 0 0 = 0xD2 ∧ data.getD 1 0 = 0x03
  · rw [tryParse_fst_accept data bms hg, cellPhase_of_skip data bms hall]
    obtain ⟨v1, m1, n1⟩ := socPhase_keeps data bms
    obtain ⟨v2, m2, n2⟩ := tempPhase_keeps data (socPhase data bms)
    obtain ⟨v3, m3, n3⟩ := currentPhase_keeps data (tempPhase data (socPhase data bms))
    obtain ⟨v4, m4, n4⟩ :=
      cyclesPhase_keeps data (currentPhase data (tempPhase data (socPhase data bms)))
    exact ⟨by rw [v4, v3, v2, v1], by rw [m4, m3, m2, m1], by rw [n4, n3, n2, n1]⟩
  · rw [tryParse_fst_reject data bms hg]
    exact ⟨rfl, rfl, rfl⟩

/-- Witness for claim C10 on the empty byte sequence. -/
theorem claim_C10_witness :
    cellStep [] ([] : List Nat).length ⟨0, 0, 65535, 0⟩ 0 = ⟨0, 0, 65535, 0⟩ ∧
    ((tryProperDalyProtocol_parse [] initBMSData).1.voltage = initBMSData.voltage ∧
     (tryProperDalyProtocol_parse [] initBMSData).1.max_cell_voltage =
       initBMSData.max_cell_voltage ∧
     (tryProperDalyProtocol_parse [] initBMSData).1.min_cell_voltage =
       initBMSData.min_cell_voltage) :=
  claim_C10 [] initBMSData ⟨0, 0, 65535, 0⟩ 0 (by decide) (by decide)

end DalyBMS

namespace DalyBMS

/-! Helper lemmas for the bulk cell-voltage fold and the connection retry
counter. -/

theorem cellFold_inRange (data : List Nat) :
    ∀ (idxs : List Nat) (acc : CellAcc),
      (∀ i ∈ idxs, 3 + i * 2 + 1 < data.length) →
      (∀ i ∈ idxs, 3100 ≤ wordAt data (3 + i * 2) ∧ wordAt data (3 + i * 2) ≤ 3400) →
      acc.total + (idxs.map (fun i => wordAt data (3 + i * 2))).sum < 65536 →
      idxs.foldl (cellStep data data.length) acc =
        { total := acc.total + (idxs.map (fun i => wordAt data (3 + i * 2))).sum,
          maxV := (idxs.map (fun i => wordAt data (3 + i * 2))).foldl max acc.maxV,
          minV := (idxs.map (fun i => wordAt data (3 + i * 2))).foldl min acc.minV,
          count := acc.count + idxs.length } := by
  intro idxs
  induction idxs with
  | nil =>
    intro acc _ _ _
    simp
  | cons i rest ih =>
    intro acc hlen hin hb
    have hii := hin i (List.mem_cons_self i rest)
    have hsum_cons : ((i :: rest).map (fun j => wordAt data (3 + j * 2))).sum =
        wordAt data (3 + i * 2) +
          (rest.map (fun j => wordAt data (3 + j * 2))).sum := by
      simp
    have hstep : cellStep data data.length acc i =
        { total := acc.total + wordAt data (3 + i * 2),
          maxV := max acc.maxV (wordAt data (3 + i * 2)),
          minV := min acc.minV (wordAt data (3 + i * 2)),
          count := acc.count + 1 } := by
      unfold cellStep
      rw [if_pos (hlen i (List.mem_cons_self i rest))]
      dsimp only
      rw [if_pos (by omega)]
      have hlt : acc.total + wordAt data (3 + i * 2) < 65536 := by
        rw [hsum_cons] at hb
        omega
      rw [Nat.mod_eq_of_lt hlt]
    rw [List.foldl_cons, hstep]
    rw [ih { total := acc.total + wordAt data (3 + i * 2),
             maxV := max acc.maxV (wordAt data (3 + i * 2)),
             minV := min acc.minV (wordAt data (3 + i * 2)),
             count := acc.count + 1 }
        (fun j hj => hlen j (by simp [hj]))
        (fun j hj => hin j (by simp [hj]))
        (by rw [hsum_cons] at hb; dsimp only; omega)]
    simp only [List.map_cons, List.sum_cons, List.length_cons, List.foldl_cons]
    congr 1
    · omega
    · omega

theorem connect_fail_clear (st : ConnState) (h : st.discovered_bms_mac = "") :
    connectToBMS st false = st := by
  unfold connectToBMS
  rw [if_pos (by rw [h]; rfl)]

theorem connect_fail_low (mac : String) (c : Nat) (conn : Bool) (h : mac.length ≠ 0)
    (hc : c + 1 < 5) :
    connectToBMS ⟨mac, c, conn⟩ false = ⟨mac, c + 1, false⟩ := by
  unfold connectToBMS
  rw [if_neg h]
  dsimp only
  rw [if_neg (by simp), if_neg (by omega)]

theorem connect_fail_high (mac : String) (c : Nat) (conn : Bool) (h : mac.length ≠ 0)
    (hc : 5 ≤ c + 1) :
    connectToBMS ⟨mac, c, conn⟩ false = ⟨"", 0, false⟩ := by
  unfold connectToBMS
  rw [if_neg h]
  dsimp only
  rw [if_neg (by simp), if_pos hc]

theorem connect_success_eq (st : ConnState) (h : st.discovered_bms_mac.length ≠ 0) :
    connectToBMS st true = { st with connected := true, connectionAttempts := 0 } := by
  unfold connectToBMS
  rw [if_neg h]
  rfl

/-- Claim C8: from any session state holding a candidate, five consecutive
connect failures clear the candidate and reset the attempt counter to 0, and a
single successful connection resets the counter to 0 while keeping the
candidate. -/
theorem claim_C8 (st : ConnState) (h : st.discovered_bms_mac.length ≠ 0) :
    ((connectToBMS (connectToBMS (connectToBMS (connectToBMS (connectToBMS st false)
        false) false) false) false).discovered_bms_mac = "" ∧
     (connectToBMS (connectToBMS (connectToBMS (connectToBMS (connectToBMS st false)
        false) false) false) false).connectionAttempts = 0) ∧
    ((connectToBMS st true).connectionAttempts = 0 ∧
     (connectToBMS st true).discovered_bms_mac = st.discovered_bms_mac) := by
  obtain ⟨mac, c, conn⟩ := st
  have main5 : connectToBMS (connectToBMS (connectToBMS (connectToBMS (connectToBMS
      (⟨mac, c, conn⟩ : ConnState) false) false) false) false) false =
      (⟨"", 0, false⟩ : ConnState) := by
    rcases Nat.lt_or_ge c 4 with h4 | h4
    · interval_cases c
      · rw [connect_fail_low mac 0 conn h (by norm_num),
          connect_fail_low mac 1 false h (by norm_num),
          connect_fail_low mac 2 false h (by norm_num),
          connect_fail_low mac 3 false h (by norm_num),
          connect_fail_high mac 4 false h (by norm_num)]
      · rw [connect_fail_low mac 1 conn h (by norm_num),
          connect_fail_low mac 2 false h (by norm_num),
          connect_fail_low mac 3 false h (by norm_num),
          connect_fail_high mac 4 false h (by norm_num),
          connect_fail_clear ⟨"", 0, false⟩ rfl]
      · rw [connect_fail_low mac 2 conn h (by norm_num),
          connect_fail_low mac 3 false h (by norm_num),
          connect_fail_high mac 4 false h (by norm_num),
          connect_fail_clear ⟨"", 0, false⟩ rfl,
          connect_fail_clear ⟨"", 0, false⟩ rfl]
      · rw [connect_fail_low mac 3 conn h (by norm_num),
          connect_fail_high mac 4 false h (by norm_num),
          connect_fail_clear ⟨"", 0, false⟩ rfl,
          connect_fail_clear ⟨"", 0, false⟩ rfl,
          connect_fail_clear ⟨"", 0, false⟩ rfl]
    · rw [connect_fail_high mac c conn h (by omega),
        connect_fail_clear ⟨"", 0, false⟩ rfl,
        connect_fail_clear ⟨"", 0, false⟩ rfl,
        connect_fail_clear ⟨"", 0, false⟩ rfl,
        connect_fail_clear ⟨"", 0, false⟩ rfl]
  refine ⟨⟨?_, ?_⟩, ?_, ?_⟩
  · rw [main5]
  · rw [main5]
  · rw [connect_success_eq ⟨mac, c, conn⟩ h]
  · rw [connect_success_eq ⟨mac, c, conn⟩ h]

/-- Witness for claim C8 from a concrete state holding candidate "AA". -/
theorem claim_C8_witness :
    ((connectToBMS (connectToBMS (connectToBMS (connectToBMS (connectToBMS
        (⟨"AA", 0, false⟩ : ConnState) false) false) false) false)
        false).discovered_bms_mac = "" ∧
     (connectToBMS (connectToBMS (connectToBMS (connectToBMS (connectToBMS
        (⟨"AA", 0, false⟩ : ConnState) false) false) false) false)
        false).connectionAttempts = 0) ∧
    ((connectToBMS (⟨"AA", 0, false⟩ : ConnState) true).connectionAttempts = 0 ∧
     (connectToBMS (⟨"AA", 0, false⟩ : ConnState) true).discovered_bms_mac = "AA") :=
  claim_C8 ⟨"AA", 0, false⟩ (by decide)

set_option maxHeartbeats 1000000 in
/-- Claim C6: a 129-byte frame accepted by the bulk decoder whose sixteen
big-endian cell words (bytes 3-34) sum to 52000 with maximum 3400 and minimum
3100 yields pack voltage 52 V, max cell voltage 3400 mV and min cell voltage
3100 mV. -/
theorem claim_C6 (data : List Nat) (bms : BMSData)
    (hlen : data.length = 129)
    (hd0 : data.getD 0 0 = 0xD2) (hd1 : data.getD 1 0 = 0x03)
    (hcells : ∀ i ∈ List.range 16,
      3100 ≤ wordAt data (3 + i * 2) ∧ wordAt data (3 + i * 2) ≤ 3400)
    (hsum : ((List.range 16).map (fun i => wordAt data (3 + i * 2))).sum = 52000)
    (hmax : 3400 ∈ (List.range 16).map (fun i => wordAt data (3 + i * 2)))
    (hmin : 3100 ∈ (List.range 16).map (fun i => wordAt data (3 + i * 2))) :
    (tryProperDalyProtocol_parse data bms).1.voltage = 52 ∧
    (tryProperDalyProtocol_parse data bms).1.max_cell_voltage = 3400 ∧
    (tryProperDalyProtocol_parse data bms).1.min_cell_voltage = 3100 := by
  have hg : 124 ≤ data.length ∧ data.getD 0 0 = 0xD2 ∧ data.getD 1 0 = 0x03 :=
    ⟨by omega, hd0, hd1⟩
  rw [tryParse_fst_accept data bms hg]
  have hub : ∀ x ∈ (List.range 16).map (fun i => wordAt data (3 + i * 2)), x ≤ 3400 := by
    intro x hx
    obtain ⟨i, hi, rfl⟩ := List.mem_map.mp hx
    exact (hcells i hi).2
  have hlb : ∀ x ∈ (List.range 16).map (fun i => wordAt data (3 + i * 2)), 3100 ≤ x := by
    intro x hx
    obtain ⟨i, hi, rfl⟩ := List.mem_map.mp hx
    exact (hcells i hi).1
  have hmaxv := foldl_max_eq ((List.range 16).map (fun i => wordAt data (3 + i * 2)))
    0 3400 (by omega) hub hmax
  have hminv := foldl_min_eq ((List.range 16).map (fun i => wordAt data (3 + i * 2)))
    65535 3100 (by omega) hlb hmin
  have hfold := cellFold_inRange data (List.range 16) ⟨0, 0, 65535, 0⟩
    (fun i hi => by
      have hi16 : i < 16 := List.mem_range.mp hi
      omega)
    hcells
    (by rw [hsum]; decide)
  have hfold2 : (List.range 16).foldl (cellStep data data.length) ⟨0, 0, 65535, 0⟩ =
      (⟨52000, 3400, 3100, 16⟩ : CellAcc) := by
    refine hfold.trans ?_
    rw [CellAcc.mk.injEq]
    refine ⟨?_, ?_, ?_, ?_⟩
    · rw [hsum]
    · exact hmaxv
    · exact hminv
    · rfl
  have hb0 : (cellPhase data bms).voltage = ((52000 : Nat) : ℚ) / 1000 ∧
      (cellPhase data bms).max_cell_voltage = 3400 ∧
      (cellPhase data bms).min_cell_voltage = 3100 := by
    unfold cellPhase
    rw [hfold2]
    dsimp only
    rw [if_pos (by norm_num)]
    exact ⟨rfl, rfl, rfl⟩
  obtain ⟨v0, m0, n0⟩ := hb0
  obtain ⟨v1, m1, n1⟩ := socPhase_keeps data (cellPhase data bms)
  obtain ⟨v2, m2, n2⟩ := tempPhase_keeps data (socPhase data (cellPhase data bms))
  obtain ⟨v3, m3, n3⟩ :=
    currentPhase_keeps data (tempPhase data (socPhase data (cellPhase data bms)))
  obtain ⟨v4, m4, n4⟩ := cyclesPhase_keeps data
    (currentPhase data (tempPhase data (socPhase data (cellPhase data bms))))
  refine ⟨?_, ?_, ?_⟩
  · rw [v4, v3, v2, v1, v0]
    norm_num
  · rw [m4, m3, m2, m1, m0]
  · rw [n4, n3, n2, n1, n0]

set_option maxRecDepth 4000 in
/-- Witness for claim C6 on a concrete 129-byte frame with cells 3400, 3100
and fourteen times 3250. -/
theorem claim_C6_witness :
    (tryProperDalyProtocol_parse bulkFrame129 initBMSData).1.voltage = 52 ∧
    (tryProperDalyProtocol_parse bulkFrame129 initBMSData).1.max_cell_voltage = 3400 ∧
    (tryProperDalyProtocol_parse bulkFrame129 initBMSData).1.min_cell_voltage = 3100 :=
  claim_C6 bulkFrame129 initBMSData (by decide) (by decide) (by decide) (by decide)
    (by decide) (by decide) (by decide)

end DalyBMS
